import Mathlib

set_option maxRecDepth 16000

/-!
Shallow embedding of the math/ledger core of the streamlit-hub repository
(apps `uniswapv3`, `uniswapv3_first_swap`, `uniswapv3_manager_contract`).

Python float arithmetic (`math.log`, `math.sqrt`, `**`) is modelled over the
real numbers; Python's `int(x)` applied to the nonnegative values arising here
coincides with the floor, so those conversions are modelled with `Int.floor`.
This idealization is exact for guards, comparisons, and the integer pipeline,
but the double-precision program only computes rounded approximations of the
logarithm and square-root expressions, so theorems below assert only
properties robust to that rounding (guard branches, agreement of identical
expressions, non-strict monotonicity, control flow); exact values of the
log quotient at particular inputs are not claimed.
Python's integer floor division `//` is modelled with `Int.fdiv` (floor
division).  Python dictionaries with `.get(k, 0)` reads are modelled as total
functions defaulting to 0.  Python exceptions are modelled with `Except`; for
stateful operations the post-state at the moment the exception propagates is
returned alongside the `Except` value.
-/

/-- Q96 scaling constant, `Q96 = 2**96` from the sources. -/
def Q96 : ℤ := 2 ^ 96

/-- Embeds `tick_from_price` of `apps/uniswapv3/app.py`:
`math.floor(math.log(P) / math.log(1.0001))`.  The real-valued quotient is an
idealization: the program floors the double-precision rounded quotient, which
can differ from the exact floor in the last unit (e.g. the program returns 1
at `P = float(1.0001)`, the exact floor there being 0). -/
noncomputable def tick_from_price (P : ℝ) : ℤ :=
  Int.floor (Real.log P / Real.log 1.0001)

/-- Embeds `price_to_tick` of `apps/uniswapv3_first_swap/app.py` and
`apps/uniswapv3_manager_contract/app.py`: returns `0` when `price <= 0`
(the guard is exact in the program too), otherwise
`int(math.floor(math.log(price) / math.log(1.0001)))` — the same expression
`tick_from_price` computes; its real-valued reading idealizes the rounded
double-precision quotient, so no theorem below asserts its exact value at a
particular positive price. -/
noncomputable def price_to_tick (price : ℝ) : ℤ :=
  if price ≤ 0 then 0
  else Int.floor (Real.log price / Real.log 1.0001)

/-- Embeds `tick_to_price`: `1.0001 ** tick`.  Real-valued idealization of the
double-precision power; the program's result differs from the exact value in
the low bits, which is why no round-trip through the rounded logarithms is
asserted of this model. -/
noncomputable def tick_to_price (tick : ℤ) : ℝ :=
  (1.0001 : ℝ) ^ tick

/-- Embeds `sqrtPriceX96_float` of `apps/uniswapv3/app.py`:
`int(math.sqrt(P) * Q96_INT)` (floor, the value being nonnegative). -/
noncomputable def sqrtPriceX96_float (P : ℝ) : ℤ :=
  Int.floor (Real.sqrt P * (2 : ℝ) ^ 96)

/-- Embeds `price_to_sqrtp_x96` of `apps/uniswapv3_first_swap/app.py`:
`int(math.sqrt(price) * Q96)`. -/
noncomputable def price_to_sqrtp_x96 (price : ℝ) : ℤ :=
  Int.floor (Real.sqrt price * (2 : ℝ) ^ 96)

/-- Embeds `tick_to_sqrtp_x96` (same definition in the first-swap and manager
apps): `int(math.sqrt(tick_to_price(tick)) * Q96)`. -/
noncomputable def tick_to_sqrtp_x96 (tick : ℤ) : ℤ :=
  price_to_sqrtp_x96 (tick_to_price tick)

/-- Error kinds of the core, one constructor per failure condition raised by
the Python sources (`raise ValueError(...)` sites), named as in the spec. -/
inductive Err where
  | invalidRange
  | priceOutOfRange
  | nonPositiveLiquidity
  | noLiquidity
  | invalidPrice
  | negativeAmount
  | invalidAmount
  | insufficientBalance
  | insufficientAllowance
  deriving DecidableEq, Repr

/-- Embeds `calc_amount1` of `apps/uniswapv3_first_swap/app.py`: normalizes the
two sqrt prices so the larger comes first, then `(L * (b - a)) // Q96`. -/
def calc_amount1 (L sqrtpB sqrtpA : ℤ) : ℤ :=
  if sqrtpB < sqrtpA then (L * (sqrtpA - sqrtpB)).fdiv Q96
  else (L * (sqrtpB - sqrtpA)).fdiv Q96

/-- Embeds `calc_amount0` of `apps/uniswapv3_first_swap/app.py`: normalizes the
order, then `(L * (b - a) * Q96) // (b * a)`. -/
def calc_amount0 (L sqrtpB sqrtpA : ℤ) : ℤ :=
  if sqrtpB < sqrtpA then (L * (sqrtpA - sqrtpB) * Q96).fdiv (sqrtpA * sqrtpB)
  else (L * (sqrtpB - sqrtpA) * Q96).fdiv (sqrtpB * sqrtpA)

/-- Embeds `amount1_delta` of `apps/uniswapv3_manager_contract/app.py`
(same formula as `calc_amount1`). -/
def amount1_delta (L sqrtpB sqrtpA : ℤ) : ℤ :=
  if sqrtpB < sqrtpA then (L * (sqrtpA - sqrtpB)).fdiv Q96
  else (L * (sqrtpB - sqrtpA)).fdiv Q96

/-- Embeds `amount0_delta` of `apps/uniswapv3_manager_contract/app.py`
(same formula as `calc_amount0`). -/
def amount0_delta (L sqrtpB sqrtpA : ℤ) : ℤ :=
  if sqrtpB < sqrtpA then (L * (sqrtpA - sqrtpB) * Q96).fdiv (sqrtpA * sqrtpB)
  else (L * (sqrtpB - sqrtpA) * Q96).fdiv (sqrtpB * sqrtpA)

/-- Embeds `swap_token1_in_for_token0_out_single_range` of
`apps/uniswapv3_first_swap/app.py`: guards on `L <= 0`, `sqrtp_cur <= 0`,
`amount1_in < 0`, then `d = (amount1_in * Q96) // L`,
`next = cur + d`, `amount0_out = calc_amount0(L, next, cur)`. -/
def swap_token1_in_for_token0_out_single_range (L sqrtpCur amount1In : ℤ) :
    Except Err (ℤ × ℤ) :=
  if L ≤ 0 then .error .nonPositiveLiquidity
  else if sqrtpCur ≤ 0 then .error .invalidPrice
  else if amount1In < 0 then .error .negativeAmount
  else
    let dSqrtp := (amount1In * Q96).fdiv L
    let sqrtpNext := sqrtpCur + dSqrtp
    .ok (sqrtpNext, calc_amount0 L sqrtpNext sqrtpCur)

/-- Result of the module-level swap-and-clamp block of
`apps/uniswapv3_first_swap/app.py` (lines 195-219). -/
structure SwapOutcome where
  sqrtpNext : ℤ
  amount0Out : ℤ
  amount1Used : ℤ
  clamped : Bool
  deriving DecidableEq, Repr

/-- Embeds the module-level computation of `apps/uniswapv3_first_swap/app.py`
lines 195-219: run the single-range swap; with `do_clamp` set, clamp the
resulting sqrt price first to the lower then to the upper bound (recording
`clamped`), recompute `amount0_out` for the clamped end, and take
`amount1_used = calc_amount1(L, next, cur)` when clamped, else the raw input. -/
def first_swap_outcome (L sqrtpCur amount1In sqrtpLower sqrtpUpper : ℤ)
    (doClamp : Bool) : Except Err SwapOutcome :=
  match swap_token1_in_for_token0_out_single_range L sqrtpCur amount1In with
  | .error e => .error e
  | .ok (next0, out0) =>
    if doClamp then
      let step1 := if next0 < sqrtpLower then (sqrtpLower, true) else (next0, false)
      let step2 := if step1.1 > sqrtpUpper then (sqrtpUpper, true) else step1
      let outC := calc_amount0 L step2.1 sqrtpCur
      let usedC := if step2.2 then calc_amount1 L step2.1 sqrtpCur else amount1In
      .ok ⟨step2.1, outC, usedC, step2.2⟩
    else
      .ok ⟨next0, out0, amount1In, false⟩

/-- Ledger state of one `Token` object of
`apps/uniswapv3_manager_contract/app.py`: `bal` is the address-to-balance
dictionary (absent key reads as 0), `allow` the (owner, spender)-to-allowance
dictionary. -/
structure TokenState where
  bal : String → ℤ
  allow : String × String → ℤ

/-- Embeds `Token.balance_of`: `self.bal.get(addr, 0)`. -/
def TokenState.balance_of (tk : TokenState) (addr : String) : ℤ :=
  tk.bal addr

/-- Embeds `Token.allowance`: `self.allow.get((owner, spender), 0)`. -/
def TokenState.allowance (tk : TokenState) (owner spender : String) : ℤ :=
  tk.allow (owner, spender)

/-- Embeds `Token.mint`: `self.bal[addr] = self.balance_of(addr) + raw_amt`. -/
def TokenState.mint (tk : TokenState) (addr : String) (rawAmt : ℤ) : TokenState :=
  { tk with bal := Function.update tk.bal addr (tk.balance_of addr + rawAmt) }

/-- Embeds `Token.approve`: `self.allow[(owner, spender)] = raw_amt`. -/
def TokenState.approve (tk : TokenState) (owner spender : String) (rawAmt : ℤ) :
    TokenState :=
  { tk with allow := Function.update tk.allow (owner, spender) rawAmt }

/-- Embeds the two balance mutations shared by `transfer` and `transfer_from`:
`self.bal[sender] -= raw_amt` followed by
`self.bal[to] = self.balance_of(to) + raw_amt` (the credit reads the balance
after the debit, which matters when `sender == to`). -/
def moveRaw (bal : String → ℤ) (sender toAddr : String) (amt : ℤ) : String → ℤ :=
  let bal1 := Function.update bal sender (bal sender - amt)
  Function.update bal1 toAddr (bal1 toAddr + amt)

/-- Embeds `Token.transfer`: fails on a negative amount, then on an
insufficient sender balance, otherwise debits the sender and credits the
recipient. -/
def TokenState.transfer (tk : TokenState) (sender toAddr : String) (rawAmt : ℤ) :
    Except Err TokenState :=
  if rawAmt < 0 then .error .invalidAmount
  else if tk.balance_of sender < rawAmt then .error .insufficientBalance
  else .ok { tk with bal := moveRaw tk.bal sender toAddr rawAmt }

/-- Embeds `Token.transfer_from`: fails on a negative amount, then on
insufficient allowance, then on insufficient owner balance; otherwise writes
`allow[(owner, spender)] = allowed - raw_amt` and moves the funds. -/
def TokenState.transfer_from (tk : TokenState) (spender owner toAddr : String)
    (rawAmt : ℤ) : Except Err TokenState :=
  if rawAmt < 0 then .error .invalidAmount
  else if tk.allowance owner spender < rawAmt then .error .insufficientAllowance
  else if tk.balance_of owner < rawAmt then .error .insufficientBalance
  else .ok { bal := moveRaw tk.bal owner toAddr rawAmt,
             allow := Function.update tk.allow (owner, spender)
               (tk.allowance owner spender - rawAmt) }

/-- One ledger call, for stating properties of call sequences. -/
inductive LedgerOp where
  | opMint (addr : String) (amt : ℤ)
  | opApprove (owner spender : String) (amt : ℤ)
  | opTransfer (sender toAddr : String) (amt : ℤ)
  | opTransferFrom (spender owner toAddr : String) (amt : ℤ)
  deriving DecidableEq, Repr

/-- Applies one ledger call; a call that raises leaves the token state as the
Python object is left (the checks of `transfer`/`transfer_from` precede every
mutation, so a failed call changes nothing). -/
def LedgerOp.apply (tk : TokenState) : LedgerOp → TokenState
  | .opMint a amt => tk.mint a amt
  | .opApprove o s amt => tk.approve o s amt
  | .opTransfer s t amt =>
    match tk.transfer s t amt with
    | .ok tk' => tk'
    | .error _ => tk
  | .opTransferFrom sp o t amt =>
    match tk.transfer_from sp o t amt with
    | .ok tk' => tk'
    | .error _ => tk

/-- Applies a sequence of ledger calls in order. -/
def applyOps (tk : TokenState) (ops : List LedgerOp) : TokenState :=
  ops.foldl LedgerOp.apply tk

/-- Addresses mentioned by a ledger call. -/
def LedgerOp.addrs : LedgerOp → Finset String
  | .opMint a _ => {a}
  | .opApprove o s _ => {o, s}
  | .opTransfer s t _ => {s, t}
  | .opTransferFrom sp o t _ => {sp, o, t}

/-- Amount minted by a ledger call (0 for every call other than `mint`). -/
def LedgerOp.mintAmount : LedgerOp → ℤ
  | .opMint _ amt => amt
  | _ => 0

/-- Total amount minted over a sequence of ledger calls. -/
def mintTotal (ops : List LedgerOp) : ℤ :=
  (ops.map LedgerOp.mintAmount).sum

/-- Pool address fixed by the app setup (`Pool1`). -/
def poolAddr : String := "Pool1"

/-- Manager address fixed by the app setup (`Manager`). -/
def managerAddr : String := "Manager"

/-- Pool state of `apps/uniswapv3_manager_contract/app.py`: current sqrt price,
active range ticks, and active liquidity. -/
structure PoolState where
  sqrtp_x96 : ℤ
  lower_tick : ℤ
  upper_tick : ℤ
  L : ℤ
  deriving DecidableEq, Repr

/-- Combined state of the manager-contract simulation: the pool and the two
token ledgers it references (`token0` = ETH, `token1` = USDC in the app). -/
structure MState where
  pool : PoolState
  t0 : TokenState
  t1 : TokenState

/-- Embeds the body shared by `Manager.uniswapV3MintCallback` and
`Manager.uniswapV3SwapCallback`: for each positive amount, pull it from the
payer to the pool with `transfer_from` (spender = manager).  When the second
pull fails after the first succeeded, the first transfer persists. -/
def pullIfPositive (tk : TokenState) (payer : String) (amt : ℤ) :
    Except Err TokenState :=
  if 0 < amt then tk.transfer_from managerAddr payer poolAddr amt
  else .ok tk

/-- Embeds `Manager.uniswapV3MintCallback`: pulls `amount0` of token0 then
`amount1` of token1 from the payer when positive; returns the state at the
point any exception propagates. -/
def uniswapV3MintCallback (st : MState) (payer : String) (amount0 amount1 : ℤ) :
    MState × Except Err Unit :=
  match pullIfPositive st.t0 payer amount0 with
  | .error e => (st, .error e)
  | .ok t0' =>
    match pullIfPositive st.t1 payer amount1 with
    | .error e => ({ st with t0 := t0' }, .error e)
    | .ok t1' => ({ st with t0 := t0', t1 := t1' }, .ok ())

/-- Embeds `Manager.uniswapV3SwapCallback` (same pull logic as the mint
callback). -/
def uniswapV3SwapCallback (st : MState) (payer : String) (amount0 amount1 : ℤ) :
    MState × Except Err Unit :=
  match pullIfPositive st.t0 payer amount0 with
  | .error e => (st, .error e)
  | .ok t0' =>
    match pullIfPositive st.t1 payer amount1 with
    | .error e => ({ st with t0 := t0' }, .error e)
    | .ok t1' => ({ st with t0 := t0', t1 := t1' }, .ok ())

/-- Embeds `Pool.mint` as driven by `Manager.mint`: `set_range` first (fails on
`lower_tick >= upper_tick`), then `_required_amounts_for_liquidity` (fails when
the current sqrt price is outside `[sqrtL, sqrtU]`), then the mint callback,
and only after the callback succeeds `self.L += liquidity`.  The first
component of the result is the state at the moment the call returns or the
exception propagates. -/
noncomputable def poolMintRun (st : MState) (payer : String) (lowerTick upperTick liquidity : ℤ) :
    MState × Except Err (ℤ × ℤ) :=
  if lowerTick ≥ upperTick then (st, .error .invalidRange)
  else
    let st1 : MState :=
      { st with pool := { st.pool with lower_tick := lowerTick, upper_tick := upperTick } }
    let sqrtL := tick_to_sqrtp_x96 lowerTick
    let sqrtU := tick_to_sqrtp_x96 upperTick
    let sqrtC := st1.pool.sqrtp_x96
    if ¬ (sqrtL ≤ sqrtC ∧ sqrtC ≤ sqrtU) then (st1, .error .priceOutOfRange)
    else
      let amt0 := amount0_delta liquidity sqrtU sqrtC
      let amt1 := amount1_delta liquidity sqrtC sqrtL
      match uniswapV3MintCallback st1 payer amt0 amt1 with
      | (st2, .error e) => (st2, .error e)
      | (st2, .ok _) =>
        ({ st2 with pool := { st2.pool with L := st2.pool.L + liquidity } },
         .ok (amt0, amt1))

/-- Embeds `Pool.swap_token1_in_for_token0_out` as driven by `Manager.swap`:
fails on `L <= 0`; moves the sqrt price by `(amount1_in * Q96) // L`, clamps it
into the range (upper bound first, then lower), computes the token deltas for
the clamped move, runs the swap callback with the Uniswap sign convention,
pre-checks and performs the pool's token0 payout, and only then commits
`sqrtp_x96 = sqrtN`. -/
noncomputable def poolSwapRun (st : MState) (payer recipient : String) (amount1InRaw : ℤ) :
    MState × Except Err (ℤ × ℤ) :=
  if st.pool.L ≤ 0 then (st, .error .noLiquidity)
  else
    let sqrtC := st.pool.sqrtp_x96
    let sqrtL := tick_to_sqrtp_x96 st.pool.lower_tick
    let sqrtU := tick_to_sqrtp_x96 st.pool.upper_tick
    let dSqrtp := (amount1InRaw * Q96).fdiv st.pool.L
    let sqrtN0 := sqrtC + dSqrtp
    let sqrtN1 := if sqrtN0 > sqrtU then sqrtU else sqrtN0
    let sqrtN := if sqrtN1 < sqrtL then sqrtL else sqrtN1
    let amt1Used := amount1_delta st.pool.L sqrtN sqrtC
    let amt0Out := amount0_delta st.pool.L sqrtN sqrtC
    match uniswapV3SwapCallback st payer (-amt0Out) amt1Used with
    | (st1, .error e) => (st1, .error e)
    | (st1, .ok _) =>
      if st1.t0.balance_of poolAddr < amt0Out then (st1, .error .insufficientBalance)
      else
        match st1.t0.transfer poolAddr recipient amt0Out with
        | .error e => (st1, .error e)
        | .ok t0' =>
          ({ st1 with t0 := t0', pool := { st1.pool with sqrtp_x96 := sqrtN } },
           .ok (amt1Used, amt0Out))

/-! Helper lemmas about floor division. -/

lemma mul_fdiv_le_self {x L : ℤ} (hL : 0 < L) : L * x.fdiv L ≤ x := by
  rw [Int.fdiv_eq_ediv _ hL.le]
  have h1 := Int.ediv_add_emod x L
  have h2 : 0 ≤ x % L := Int.emod_nonneg x hL.ne'
  linarith

lemma fdiv_lt_of_lt_mul {x y Q : ℤ} (hQ : 0 < Q) (h : x < y * Q) : x.fdiv Q < y := by
  rw [Int.fdiv_eq_ediv _ hQ.le]
  exact (Int.ediv_lt_iff_lt_mul hQ).mpr h

lemma swap_single_ok {L cur a1 : ℤ} (hL : 0 < L) (hcur : 0 < cur) (ha : 0 ≤ a1) :
    swap_token1_in_for_token0_out_single_range L cur a1
      = .ok (cur + (a1 * Q96).fdiv L, calc_amount0 L (cur + (a1 * Q96).fdiv L) cur) := by
  unfold swap_token1_in_for_token0_out_single_range
  rw [if_neg (by omega), if_neg (by omega), if_neg (by omega)]

/-- Claim C9: the pure swap computation rejects bad inputs with the expected
error kinds (liquidity checked first, then price, then amount), and for valid
inputs returns `sqrtNext = sqrtCurrent + floor(amount1In * 2^96 / L)` together
with the `calc_amount0` output for that move. -/
theorem swap_single_range_spec (L sqrtpCur amount1In : ℤ) :
    (L ≤ 0 → swap_token1_in_for_token0_out_single_range L sqrtpCur amount1In
        = .error .nonPositiveLiquidity) ∧
    (0 < L → sqrtpCur ≤ 0 →
      swap_token1_in_for_token0_out_single_range L sqrtpCur amount1In
        = .error .invalidPrice) ∧
    (0 < L → 0 < sqrtpCur → amount1In < 0 →
      swap_token1_in_for_token0_out_single_range L sqrtpCur amount1In
        = .error .negativeAmount) ∧
    (0 < L → 0 < sqrtpCur → 0 ≤ amount1In →
      swap_token1_in_for_token0_out_single_range L sqrtpCur amount1In
        = .ok (sqrtpCur + (amount1In * Q96).fdiv L,
               calc_amount0 L (sqrtpCur + (amount1In * Q96).fdiv L) sqrtpCur)) := by
  refine ⟨?_, ?_, ?_, ?_⟩
  · intro h
    unfold swap_token1_in_for_token0_out_single_range
    rw [if_pos h]
  · intro hL h
    unfold swap_token1_in_for_token0_out_single_range
    rw [if_neg (by omega), if_pos h]
  · intro hL hc h
    unfold swap_token1_in_for_token0_out_single_range
    rw [if_neg (by omega), if_neg (by omega), if_pos h]
  · intro hL hc ha
    exact swap_single_ok hL hc ha

/-- Witness for C9 at the concrete valid input `(L, sqrtCurrent, amount1In) =
(2, 5, 3)`. -/
theorem swap_single_range_spec_witness :
    swap_token1_in_for_token0_out_single_range 2 5 3
      = .ok (5 + ((3 : ℤ) * Q96).fdiv 2,
             calc_amount0 2 (5 + ((3 : ℤ) * Q96).fdiv 2) 5) :=
  (swap_single_range_spec 2 5 3).2.2.2 (by norm_num) (by norm_num) (by norm_num)

/-- Claim C3 (amended): in the first-swap app's module-level computation,
a non-clamped swap returns `amount1Used = amount1In` exactly, and only a
clamped swap recomputes `amount1Used = calc_amount1(L, sqrtNext, sqrtCurrent)`.
(`Pool.swap_token1_in_for_token0_out` of the manager app instead always
recomputes `amount1Used`; see the counterexample.) -/
theorem first_swap_amount1_used_amended :
    (∀ L cur a1 lo up dc out,
      first_swap_outcome L cur a1 lo up dc = .ok out → out.clamped = false →
        out.amount1Used = a1) ∧
    (∀ L cur a1 lo up dc out,
      first_swap_outcome L cur a1 lo up dc = .ok out → out.clamped = true →
        out.amount1Used = calc_amount1 L out.sqrtpNext cur) := by
  constructor <;>
  · intro L cur a1 lo up dc out hok hcl
    simp only [first_swap_outcome] at hok
    split at hok
    · exact absurd hok (by simp)
    · split at hok
      · injection hok with h
        subst h
        simp only [SwapOutcome.clamped] at hcl
        simp only [SwapOutcome.amount1Used, SwapOutcome.sqrtpNext, hcl]
        simp
      · injection hok with h
        subst h
        simp only [SwapOutcome.clamped] at hcl
        simp_all

deriving instance DecidableEq for Except

/-- Witness for C3 at the concrete non-clamped input
`(L, cur, amount1In) = (2, 5, 3)` with clamping disabled. -/
theorem first_swap_amount1_used_witness :
    first_swap_outcome 2 5 3 0 (10 ^ 40) false
      = .ok ⟨5 + ((3 : ℤ) * Q96).fdiv 2,
             calc_amount0 2 (5 + ((3 : ℤ) * Q96).fdiv 2) 5, 3, false⟩ ∧
    (3 : ℤ) = 3 := by
  constructor
  · decide
  · exact first_swap_amount1_used_amended.1 2 5 3 0 (10 ^ 40) false
      ⟨5 + ((3 : ℤ) * Q96).fdiv 2,
       calc_amount0 2 (5 + ((3 : ℤ) * Q96).fdiv 2) 5, 3, false⟩ (by decide) rfl

lemma first_swap_clamp_eval {L cur a1 lo up : ℤ} (hL : 0 < L) (hcur : 0 < cur)
    (ha : 0 ≤ a1) :
    first_swap_outcome L cur a1 lo up true
      = .ok (if cur + (a1 * Q96).fdiv L < lo then
               (if lo > up then ⟨up, calc_amount0 L up cur, calc_amount1 L up cur, true⟩
                else ⟨lo, calc_amount0 L lo cur, calc_amount1 L lo cur, true⟩)
             else if cur + (a1 * Q96).fdiv L > up then
               ⟨up, calc_amount0 L up cur, calc_amount1 L up cur, true⟩
             else ⟨cur + (a1 * Q96).fdiv L,
                   calc_amount0 L (cur + (a1 * Q96).fdiv L) cur, a1, false⟩) := by
  unfold first_swap_outcome
  rw [swap_single_ok hL hcur ha]
  by_cases h1 : cur + (a1 * Q96).fdiv L < lo
  · by_cases h2 : lo > up
    · simp [h1, h2]
    · simp [h1, h2]
  · by_cases h2 : cur + (a1 * Q96).fdiv L > up
    · simp [h1, h2]
    · simp [h1, h2]

/-- Claim C2 (amended): whenever the first-swap app reports `clamped = true`
(for `L > 0`, `sqrtCurrent > 0`, `amount1In >= 0`, `sqrtLower < sqrtUpper`),
the returned `sqrtNext` is exactly `sqrtLower` or `sqrtUpper`; and provided
additionally that the starting price lies inside the range
(`sqrtLower <= sqrtCurrent <= sqrtUpper`), `amount1Used <= amount1In`.
(Started below the range, the clamp to the lower bound can consume more than
`amount1In`; see the counterexample.) -/
theorem swap_clamp_amended (L cur a1 lo up : ℤ) (hL : 0 < L) (hcur : 0 < cur)
    (ha : 0 ≤ a1) (hlu : lo < up) (out : SwapOutcome)
    (hok : first_swap_outcome L cur a1 lo up true = .ok out)
    (hcl : out.clamped = true) :
    (out.sqrtpNext = lo ∨ out.sqrtpNext = up) ∧
    (lo ≤ cur → cur ≤ up → out.amount1Used ≤ a1) := by
  have hd : 0 ≤ (a1 * Q96).fdiv L :=
    Int.fdiv_nonneg (mul_nonneg ha (by norm_num [Q96])) hL.le
  rw [first_swap_clamp_eval hL hcur ha] at hok
  injection hok with h
  subst h
  by_cases h1 : cur + (a1 * Q96).fdiv L < lo
  · rw [if_pos h1, if_neg (by omega : ¬ lo > up)] at hcl ⊢
    exact ⟨Or.inl rfl, fun hlc _ => absurd h1 (by omega)⟩
  · rw [if_neg h1] at hcl ⊢
    by_cases h2 : cur + (a1 * Q96).fdiv L > up
    · rw [if_pos h2] at hcl ⊢
      refine ⟨Or.inr rfl, fun hlc hcu => ?_⟩
      show calc_amount1 L up cur ≤ a1
      unfold calc_amount1
      rw [if_neg (by omega : ¬ up < cur)]
      have hLd : L * ((a1 * Q96).fdiv L) ≤ a1 * Q96 := mul_fdiv_le_self hL
      have hlt : L * (up - cur) < a1 * Q96 := by
        have hle : L * (up - cur) ≤ L * ((a1 * Q96).fdiv L - 1) :=
          mul_le_mul_of_nonneg_left (by omega) hL.le
        nlinarith
      have hQ : (0 : ℤ) < Q96 := by norm_num [Q96]
      exact le_of_lt (fdiv_lt_of_lt_mul hQ hlt)
    · rw [if_neg h2] at hcl
      exact absurd hcl (by simp)

/-- Witness for C2 at the concrete in-range clamped input
`(L, cur, amount1In, lower, upper) = (2^96, 15, 100, 10, 20)`. -/
theorem swap_clamp_amended_witness :
    ((20 : ℤ) = 10 ∨ (20 : ℤ) = 20) ∧
    calc_amount1 (2 ^ 96) 20 15 ≤ 100 := by
  have h := swap_clamp_amended (2 ^ 96) 15 100 10 20 (by norm_num) (by norm_num)
    (by norm_num) (by norm_num)
    ⟨20, calc_amount0 (2 ^ 96) 20 15, calc_amount1 (2 ^ 96) 20 15, true⟩
    (by decide) rfl
  exact ⟨h.1, h.2 (by norm_num) (by norm_num)⟩

/-- Counterexample for C2 as stated: with `L = 2^96`, `sqrtCurrent = 1` (below
the range `[10, 20]`) and `amount1In = 0`, the swap is clamped to the lower
bound and reports `amount1Used = 9 > 0 = amount1In`, violating
`amount1Used <= amount1In`. -/
theorem swap_clamp_counterexample :
    (0 : ℤ) < 2 ^ 96 ∧ (0 : ℤ) < 1 ∧ (0 : ℤ) ≤ 0 ∧ (10 : ℤ) < 20 ∧
    first_swap_outcome (2 ^ 96) 1 0 10 20 true
      = .ok ⟨10, calc_amount0 (2 ^ 96) 10 1, 9, true⟩ ∧
    ¬ ((9 : ℤ) ≤ 0) :=
  ⟨by norm_num, by norm_num, le_refl 0, by norm_num, by decide, by norm_num⟩

/-! Conversions between prices and ticks (real-valued model of the float
arithmetic). -/

lemma log_base_pos : 0 < Real.log 1.0001 :=
  Real.log_pos (by norm_num)

/-- Claim C4 (amended): `price_to_tick` returns tick `0` for every price
`P <= 0` instead of failing with `InvalidPrice` (the guard comparison and the
returned constant are exact, so this branch holds of the double-precision
program as well); for `P > 0` it takes the logarithm branch and returns the
same floored log-quotient that `tick_from_price` computes on the same input
(in the program, the identical floating-point expression — only a machine
approximation of `floor(log(P)/log(1.0001))`, whose exact value at a given
positive price is not asserted here). -/
theorem price_to_tick_amended (P : ℝ) :
    (P ≤ 0 → price_to_tick P = 0) ∧
    (0 < P → price_to_tick P = tick_from_price P) := by
  constructor
  · intro h
    unfold price_to_tick
    rw [if_pos h]
  · intro h
    unfold price_to_tick tick_from_price
    rw [if_neg (not_le.mpr h)]

/-- Witness for C4 at the concrete prices `P = -1` (guard branch) and `P = 2`
(logarithm branch). -/
theorem price_to_tick_amended_witness :
    price_to_tick (-1) = 0 ∧ price_to_tick 2 = tick_from_price 2 :=
  ⟨(price_to_tick_amended (-1)).1 (by norm_num),
   (price_to_tick_amended 2).2 (by norm_num)⟩

/-- Counterexample for C4 as stated: `price_to_tick (-1)` returns `0` rather
than failing with `InvalidPrice`. -/
theorem price_to_tick_counterexample : price_to_tick (-1) = 0 := by
  unfold price_to_tick
  rw [if_pos (by norm_num : (-1 : ℝ) ≤ 0)]

/-- Claim C8 (amended): for positive prices `P1 < P2`,
`tick_from_price P1 ≤ tick_from_price P2` and
`sqrtPriceX96_float P1 ≤ sqrtPriceX96_float P2` (non-strict: the floor of the
scaled square root can coincide for distinct prices; see the counterexample). -/
theorem price_monotone_amended (P1 P2 : ℝ) (h1 : 0 < P1) (h12 : P1 < P2) :
    tick_from_price P1 ≤ tick_from_price P2 ∧
    sqrtPriceX96_float P1 ≤ sqrtPriceX96_float P2 := by
  constructor
  · apply Int.floor_le_floor
    rw [div_eq_mul_inv, div_eq_mul_inv]
    exact mul_le_mul_of_nonneg_right (Real.log_le_log h1 h12.le)
      (inv_nonneg.mpr log_base_pos.le)
  · apply Int.floor_le_floor
    exact mul_le_mul_of_nonneg_right (Real.sqrt_le_sqrt h12.le) (by positivity)

/-- Witness for C8 at the concrete prices `P1 = 1 < P2 = 2`. -/
theorem price_monotone_amended_witness :
    tick_from_price 1 ≤ tick_from_price 2 ∧
    sqrtPriceX96_float 1 ≤ sqrtPriceX96_float 2 :=
  price_monotone_amended 1 2 one_pos one_lt_two

lemma sqrtPriceX96_float_four : sqrtPriceX96_float 4 = 2 ^ 97 := by
  unfold sqrtPriceX96_float
  rw [show (4 : ℝ) = 2 ^ 2 by norm_num, Real.sqrt_sq (by norm_num : (0 : ℝ) ≤ 2)]
  rw [show (2 : ℝ) * 2 ^ 96 = (((2 : ℤ) ^ 97 : ℤ) : ℝ) by push_cast; ring]
  exact Int.floor_intCast _

lemma sqrtPriceX96_float_four_eps :
    sqrtPriceX96_float (4 + (1 / 2) ^ 100) = 2 ^ 97 := by
  unfold sqrtPriceX96_float
  have hlow : (2 : ℝ) ≤ Real.sqrt (4 + (1 / 2) ^ 100) := by
    rw [Real.le_sqrt (by norm_num) (by norm_num)]
    norm_num
  have hhigh : Real.sqrt (4 + (1 / 2) ^ 100) < 2 + (1 / 2) ^ 96 := by
    rw [Real.sqrt_lt' (by norm_num)]
    norm_num
  rw [Int.floor_eq_iff]
  constructor
  · rw [show ((((2 : ℤ) ^ 97 : ℤ)) : ℝ) = 2 * 2 ^ 96 by push_cast; ring]
    exact mul_le_mul_of_nonneg_right hlow (by positivity)
  · rw [show ((((2 : ℤ) ^ 97 : ℤ)) : ℝ) + 1 = (2 + (1 / 2) ^ 96) * 2 ^ 96 by
      push_cast; norm_num]
    exact mul_lt_mul_of_pos_right hhigh (by positivity)

/-- Counterexample for C8 as stated: the prices `4 < 4 + 2^(-100)` are both
positive yet `sqrtPriceX96_float` maps both to `2^97`, so the strict
inequality claimed for `sqrtPriceX96Approx` fails. -/
theorem sqrtPriceX96_strict_counterexample :
    (0 : ℝ) < 4 ∧ (4 : ℝ) < 4 + (1 / 2) ^ 100 ∧
    ¬ (sqrtPriceX96_float 4 < sqrtPriceX96_float (4 + (1 / 2) ^ 100)) := by
  refine ⟨by norm_num, by norm_num, ?_⟩
  rw [sqrtPriceX96_float_four, sqrtPriceX96_float_four_eps]
  exact lt_irrefl _

/-! Ledger conservation and allowance gating. -/

lemma sum_update_eq (S : Finset String) (f : String → ℤ) (x : String)
    (hx : x ∈ S) (v : ℤ) :
    ∑ a ∈ S, Function.update f x v a = (∑ a ∈ S, f a) + (v - f x) := by
  rw [Finset.sum_update_of_mem hx, Finset.sum_eq_sum_diff_singleton_add hx f]
  ring

lemma sum_moveRaw (S : Finset String) (bal : String → ℤ) (s t : String)
    (hs : s ∈ S) (ht : t ∈ S) (amt : ℤ) :
    ∑ a ∈ S, moveRaw bal s t amt a = ∑ a ∈ S, bal a := by
  unfold moveRaw
  rw [sum_update_eq S _ t ht, sum_update_eq S bal s hs]
  ring

lemma transfer_ok_bal {tk tk' : TokenState} {s t : String} {amt : ℤ}
    (h : tk.transfer s t amt = .ok tk') :
    tk'.bal = moveRaw tk.bal s t amt ∧ tk'.allow = tk.allow := by
  unfold TokenState.transfer at h
  split at h
  · exact absurd h (by simp)
  · split at h
    · exact absurd h (by simp)
    · injection h with h'
      rw [← h']
      exact ⟨rfl, rfl⟩

lemma transfer_from_ok_bal {tk tk' : TokenState} {sp o t : String} {amt : ℤ}
    (h : tk.transfer_from sp o t amt = .ok tk') :
    tk'.bal = moveRaw tk.bal o t amt ∧
    tk'.allow = Function.update tk.allow (o, sp) (tk.allowance o sp - amt) := by
  unfold TokenState.transfer_from at h
  split at h
  · exact absurd h (by simp)
  · split at h
    · exact absurd h (by simp)
    · split at h
      · exact absurd h (by simp)
      · injection h with h'
        rw [← h']
        exact ⟨rfl, rfl⟩

lemma apply_op_sum (S : Finset String) (tk : TokenState) (op : LedgerOp)
    (hsub : op.addrs ⊆ S) :
    ∑ a ∈ S, (LedgerOp.apply tk op).bal a
      = (∑ a ∈ S, tk.bal a) + op.mintAmount := by
  cases op with
  | opMint addr amt =>
    have haddr : addr ∈ S := hsub (by simp [LedgerOp.addrs])
    simp only [LedgerOp.apply, TokenState.mint, LedgerOp.mintAmount]
    rw [sum_update_eq S _ addr haddr]
    simp [TokenState.balance_of]
  | opApprove o s amt =>
    simp [LedgerOp.apply, TokenState.approve, LedgerOp.mintAmount]
  | opTransfer s t amt =>
    have hs : s ∈ S := hsub (by simp [LedgerOp.addrs])
    have ht : t ∈ S := hsub (by simp [LedgerOp.addrs])
    simp only [LedgerOp.apply, LedgerOp.mintAmount]
    split
    case _ tk' heq =>
      rw [(transfer_ok_bal heq).1, sum_moveRaw S tk.bal s t hs ht amt]
      ring
    case _ heq =>
      ring
  | opTransferFrom sp o t amt =>
    have ho : o ∈ S := hsub (by simp [LedgerOp.addrs])
    have ht : t ∈ S := hsub (by simp [LedgerOp.addrs])
    simp only [LedgerOp.apply, LedgerOp.mintAmount]
    split
    case _ tk' heq =>
      rw [(transfer_from_ok_bal heq).1, sum_moveRaw S tk.bal o t ho ht amt]
      ring
    case _ heq =>
      ring

/-- Claim C5: conservation of token supply.  Over any sequence of ledger calls
(mint, approve, transfer, transferFrom — successful or failing), the sum of
balances over any address set covering the calls changes by exactly the total
minted amount; in particular a mint-free sequence leaves the sum invariant. -/
theorem ledger_conservation (ops : List LedgerOp) (tk : TokenState)
    (S : Finset String) (hS : ∀ op ∈ ops, op.addrs ⊆ S) :
    ∑ a ∈ S, (applyOps tk ops).bal a = (∑ a ∈ S, tk.bal a) + mintTotal ops := by
  induction ops generalizing tk with
  | nil => simp [applyOps, mintTotal]
  | cons op ops ih =>
    have h1 : op.addrs ⊆ S := hS op (List.mem_cons_self op ops)
    have h2 : ∀ o ∈ ops, o.addrs ⊆ S := fun o ho => hS o (List.mem_cons_of_mem _ ho)
    have hfold : applyOps tk (op :: ops) = applyOps (LedgerOp.apply tk op) ops := rfl
    rw [hfold, ih (LedgerOp.apply tk op) h2, apply_op_sum S tk op h1]
    simp [mintTotal]
    ring

/-- Witness for C5: a concrete sequence (one mint of 5, an approval, a
successful transfer of 3, a failing transferFrom of 9) over the address set
`{A, B, M}`, starting from the empty ledger. -/
theorem ledger_conservation_witness :
    (∀ op ∈ [LedgerOp.opMint "A" 5, LedgerOp.opApprove "A" "M" 7,
             LedgerOp.opTransfer "A" "B" 3, LedgerOp.opTransferFrom "M" "A" "B" 9],
       op.addrs ⊆ ({"A", "B", "M"} : Finset String)) ∧
    ∑ a ∈ ({"A", "B", "M"} : Finset String),
        (applyOps ⟨fun _ => 0, fun _ => 0⟩
          [LedgerOp.opMint "A" 5, LedgerOp.opApprove "A" "M" 7,
           LedgerOp.opTransfer "A" "B" 3, LedgerOp.opTransferFrom "M" "A" "B" 9]).bal a
      = (∑ a ∈ ({"A", "B", "M"} : Finset String),
          (⟨fun _ => 0, fun _ => 0⟩ : TokenState).bal a)
        + mintTotal [LedgerOp.opMint "A" 5, LedgerOp.opApprove "A" "M" 7,
                     LedgerOp.opTransfer "A" "B" 3, LedgerOp.opTransferFrom "M" "A" "B" 9] :=
  ⟨by decide, ledger_conservation _ _ _ (by decide)⟩

/-- Claim C6: `transfer_from` is allowance-gated with the allowance check
before the balance check, and on success decrements the allowance by exactly
the amount while moving it from the owner to the recipient; failures return
before any state is constructed. -/
theorem transfer_from_spec (tk : TokenState) (sp o t : String) (amt : ℤ)
    (hamt : 0 ≤ amt) :
    (tk.allowance o sp < amt →
      tk.transfer_from sp o t amt = .error .insufficientAllowance) ∧
    (amt ≤ tk.allowance o sp → tk.balance_of o < amt →
      tk.transfer_from sp o t amt = .error .insufficientBalance) ∧
    (amt ≤ tk.allowance o sp → amt ≤ tk.balance_of o →
      ∃ tk', tk.transfer_from sp o t amt = .ok tk' ∧
        tk'.allowance o sp = tk.allowance o sp - amt ∧
        (o ≠ t → tk'.balance_of o = tk.balance_of o - amt ∧
                 tk'.balance_of t = tk.balance_of t + amt) ∧
        (∀ a, a ≠ o → a ≠ t → tk'.balance_of a = tk.balance_of a) ∧
        (∀ o' s', (o', s') ≠ (o, sp) → tk'.allow (o', s') = tk.allow (o', s'))) := by
  refine ⟨?_, ?_, ?_⟩
  · intro h
    unfold TokenState.transfer_from
    rw [if_neg (by omega), if_pos h]
  · intro h1 h2
    unfold TokenState.transfer_from
    rw [if_neg (by omega)]
    rw [if_neg (by exact not_lt.mpr h1), if_pos h2]
  · intro h1 h2
    refine ⟨{ bal := moveRaw tk.bal o t amt,
              allow := Function.update tk.allow (o, sp)
                (tk.allowance o sp - amt) }, ?_, ?_, ?_, ?_, ?_⟩
    · unfold TokenState.transfer_from
      rw [if_neg (by omega), if_neg (not_lt.mpr h1), if_neg (not_lt.mpr h2)]
    · simp [TokenState.allowance, Function.update_same]
    · intro hot
      constructor
      · simp only [TokenState.balance_of, moveRaw]
        rw [Function.update_noteq hot, Function.update_same]
      · simp only [TokenState.balance_of, moveRaw]
        rw [Function.update_same, Function.update_noteq (Ne.symm hot)]
    · intro a ha1 ha2
      simp only [TokenState.balance_of, moveRaw]
      rw [Function.update_noteq ha2, Function.update_noteq ha1]
    · intro o' s' hne
      simp only [TokenState.allowance]
      rw [Function.update_noteq hne]

/-- Witness for C6: with owner balance 10 and allowance 5, a pull of 7 fails
with `InsufficientAllowance` (the allowance check fires first even though the
balance also falls short of nothing). -/
theorem transfer_from_spec_witness :
    TokenState.transfer_from
      ⟨Function.update (fun _ => 0) "A" 10,
       Function.update (fun _ => 0) ("A", "M") 5⟩ "M" "A" "B" 7
      = .error .insufficientAllowance := by
  apply (transfer_from_spec _ "M" "A" "B" 7 (by norm_num)).1
  simp [TokenState.allowance, Function.update_same]

/-! Concrete evaluations of the tick-to-sqrt-price conversion, used by the
pool runs below. -/

lemma tick_to_sqrtp_zero : tick_to_sqrtp_x96 0 = 2 ^ 96 := by
  unfold tick_to_sqrtp_x96 price_to_sqrtp_x96 tick_to_price
  rw [zpow_zero, Real.sqrt_one, one_mul]
  rw [show ((2 : ℝ) ^ 96) = (((2 : ℤ) ^ 96 : ℤ) : ℝ) by push_cast; ring]
  exact Int.floor_intCast _

lemma sqrt_tick_two : Real.sqrt ((1.0001 : ℝ) ^ (2 : ℤ)) = 1.0001 := by
  rw [show ((1.0001 : ℝ) ^ (2 : ℤ)) = 1.0001 * 1.0001 by
    rw [zpow_two]]
  exact Real.sqrt_mul_self (by norm_num)

lemma tick_to_sqrtp_two :
    tick_to_sqrtp_x96 2 = 79236085330515764027303304731 := by
  unfold tick_to_sqrtp_x96 price_to_sqrtp_x96 tick_to_price
  rw [sqrt_tick_two, Int.floor_eq_iff]
  constructor
  · norm_num
  · norm_num

/-! The callbacks never touch the pool component of the state. -/

lemma mintCallback_pool (st : MState) (p : String) (a0 a1 : ℤ) :
    (uniswapV3MintCallback st p a0 a1).1.pool = st.pool := by
  unfold uniswapV3MintCallback
  cases pullIfPositive st.t0 p a0 with
  | error e => rfl
  | ok t0' =>
    cases pullIfPositive st.t1 p a1 with
    | error e => rfl
    | ok t1' => rfl

lemma swapCallback_pool (st : MState) (p : String) (a0 a1 : ℤ) :
    (uniswapV3SwapCallback st p a0 a1).1.pool = st.pool := by
  unfold uniswapV3SwapCallback
  cases pullIfPositive st.t0 p a0 with
  | error e => rfl
  | ok t0' =>
    cases pullIfPositive st.t1 p a1 with
    | error e => rfl
    | ok t1' => rfl

/-- Claim C1 (amended): when `Pool.mint` fails (in particular when the
settlement callback raises), the pool's liquidity `L` and `sqrtPrice` are
unchanged — but the active range has already been committed: if the requested
ticks were valid (`lowerTick < upperTick`), the failed call leaves the pool's
range set to the requested ticks (only an `InvalidRange` failure leaves the
previous range in place).  Ledger transfers already performed inside the
failed callback likewise persist. -/
theorem pool_mint_failure_state (st : MState) (payer : String) (lo up liq : ℤ)
    (st' : MState) (e : Err)
    (h : poolMintRun st payer lo up liq = (st', .error e)) :
    st'.pool.L = st.pool.L ∧ st'.pool.sqrtp_x96 = st.pool.sqrtp_x96 ∧
    (lo < up → st'.pool.lower_tick = lo ∧ st'.pool.upper_tick = up) ∧
    (up ≤ lo → st'.pool.lower_tick = st.pool.lower_tick ∧
               st'.pool.upper_tick = st.pool.upper_tick) := by
  simp only [poolMintRun] at h
  split at h
  · rename_i hlu
    injection h with h1 h2
    subst h1
    exact ⟨rfl, rfl, fun hc => absurd hc (by omega), fun _ => ⟨rfl, rfl⟩⟩
  · rename_i hlu
    split at h
    · injection h with h1 h2
      subst h1
      exact ⟨rfl, rfl, fun _ => ⟨rfl, rfl⟩, fun hc => absurd hc (by omega)⟩
    · split at h
      · rename_i st2 e2 heq
        injection h with h1 h2
        subst h1
        have hp := congrArg (fun q => q.1.pool) heq
        dsimp only at hp
        rw [mintCallback_pool] at hp
        rw [← hp]
        exact ⟨rfl, rfl, fun _ => ⟨rfl, rfl⟩, fun hc => absurd hc (by omega)⟩
      · rename_i st2 u heq
        exact absurd (congrArg Prod.snd h) (by simp)

/-- Witness for C1 at a concrete failing mint (`InvalidRange`: equal ticks). -/
theorem pool_mint_failure_witness :
    poolMintRun ⟨⟨1, 3, 4, 0⟩, ⟨fun _ => 0, fun _ => 0⟩, ⟨fun _ => 0, fun _ => 0⟩⟩
        "A" 3 3 5
      = (⟨⟨1, 3, 4, 0⟩, ⟨fun _ => 0, fun _ => 0⟩, ⟨fun _ => 0, fun _ => 0⟩⟩,
         .error .invalidRange) ∧
    ((⟨⟨1, 3, 4, 0⟩, ⟨fun _ => 0, fun _ => 0⟩, ⟨fun _ => 0, fun _ => 0⟩⟩ : MState).pool.L
        = (⟨⟨1, 3, 4, 0⟩, ⟨fun _ => 0, fun _ => 0⟩,
            ⟨fun _ => 0, fun _ => 0⟩⟩ : MState).pool.L ∧
      (⟨⟨1, 3, 4, 0⟩, ⟨fun _ => 0, fun _ => 0⟩,
          ⟨fun _ => 0, fun _ => 0⟩⟩ : MState).pool.sqrtp_x96
        = (⟨⟨1, 3, 4, 0⟩, ⟨fun _ => 0, fun _ => 0⟩,
            ⟨fun _ => 0, fun _ => 0⟩⟩ : MState).pool.sqrtp_x96 ∧
      ((3 : ℤ) < 3 →
        (⟨⟨1, 3, 4, 0⟩, ⟨fun _ => 0, fun _ => 0⟩,
            ⟨fun _ => 0, fun _ => 0⟩⟩ : MState).pool.lower_tick = 3 ∧
        (⟨⟨1, 3, 4, 0⟩, ⟨fun _ => 0, fun _ => 0⟩,
            ⟨fun _ => 0, fun _ => 0⟩⟩ : MState).pool.upper_tick = 3) ∧
      ((3 : ℤ) ≤ 3 →
        (⟨⟨1, 3, 4, 0⟩, ⟨fun _ => 0, fun _ => 0⟩,
            ⟨fun _ => 0, fun _ => 0⟩⟩ : MState).pool.lower_tick
          = (⟨⟨1, 3, 4, 0⟩, ⟨fun _ => 0, fun _ => 0⟩,
              ⟨fun _ => 0, fun _ => 0⟩⟩ : MState).pool.lower_tick ∧
        (⟨⟨1, 3, 4, 0⟩, ⟨fun _ => 0, fun _ => 0⟩,
            ⟨fun _ => 0, fun _ => 0⟩⟩ : MState).pool.upper_tick
          = (⟨⟨1, 3, 4, 0⟩, ⟨fun _ => 0, fun _ => 0⟩,
              ⟨fun _ => 0, fun _ => 0⟩⟩ : MState).pool.upper_tick)) := by
  have hrun : poolMintRun
      ⟨⟨1, 3, 4, 0⟩, ⟨fun _ => 0, fun _ => 0⟩, ⟨fun _ => 0, fun _ => 0⟩⟩ "A" 3 3 5
      = (⟨⟨1, 3, 4, 0⟩, ⟨fun _ => 0, fun _ => 0⟩, ⟨fun _ => 0, fun _ => 0⟩⟩,
         .error .invalidRange) := by
    norm_num [poolMintRun]
  exact ⟨hrun, pool_mint_failure_state _ "A" 3 3 5 _ Err.invalidRange hrun⟩

lemma amt0_delta_tick02 :
    amount0_delta (2 ^ 96) 79236085330515764027303304731 (2 ^ 96)
      = 7922024049021531606193775 := by decide

lemma amt1_delta_eq_zero :
    amount1_delta (2 ^ 96) (2 ^ 96) (2 ^ 96) = 0 := by decide

/-- Counterexample for C1 as stated: a mint whose settlement callback raises
`InsufficientAllowance` (the payer approved nothing) nevertheless leaves the
pool's active range changed from `[5, 10]` to the requested `[0, 2]`. -/
theorem pool_mint_atomicity_counterexample :
    (poolMintRun ⟨⟨2 ^ 96, 5, 10, 0⟩, ⟨fun _ => 0, fun _ => 0⟩,
        ⟨fun _ => 0, fun _ => 0⟩⟩ "Alice" 0 2 (2 ^ 96)).2
      = .error .insufficientAllowance ∧
    (poolMintRun ⟨⟨2 ^ 96, 5, 10, 0⟩, ⟨fun _ => 0, fun _ => 0⟩,
        ⟨fun _ => 0, fun _ => 0⟩⟩ "Alice" 0 2 (2 ^ 96)).1.pool.lower_tick = 0 ∧
    (⟨⟨2 ^ 96, 5, 10, 0⟩, ⟨fun _ => 0, fun _ => 0⟩,
        ⟨fun _ => 0, fun _ => 0⟩⟩ : MState).pool.lower_tick = 5 := by
  have hrun : poolMintRun ⟨⟨2 ^ 96, 5, 10, 0⟩, ⟨fun _ => 0, fun _ => 0⟩,
      ⟨fun _ => 0, fun _ => 0⟩⟩ "Alice" 0 2 (2 ^ 96)
      = (⟨⟨2 ^ 96, 0, 2, 0⟩, ⟨fun _ => 0, fun _ => 0⟩, ⟨fun _ => 0, fun _ => 0⟩⟩,
         .error .insufficientAllowance) := by
    simp only [poolMintRun, tick_to_sqrtp_zero, tick_to_sqrtp_two,
      amt0_delta_tick02, amt1_delta_eq_zero]
    norm_num [uniswapV3MintCallback, pullIfPositive, TokenState.transfer_from,
      TokenState.allowance]
  rw [hrun]
  exact ⟨rfl, rfl, rfl⟩

lemma swapCallback_pool_eq {st : MState} {p : String} {a0 a1 : ℤ} {st1 : MState}
    {z : Except Err Unit} (h : uniswapV3SwapCallback st p a0 a1 = (st1, z)) :
    st1.pool = st.pool := by
  have hq := congrArg (fun q => q.1.pool) h
  dsimp only at hq
  rw [swapCallback_pool] at hq
  exact hq.symm

/-- Claim C10: `Pool.swap_token1_in_for_token0_out` commits the price last.
Every failing call (callback failure, pre-payout balance check, payout
failure) leaves `sqrtPrice` unchanged; a successful call commits a price that
lies within the active range's `[sqrtLower, sqrtUpper]` (the clamp being
applied unconditionally), whenever that interval is non-degenerate. -/
theorem pool_swap_price_commit (st : MState) (payer recipient : String)
    (a1 : ℤ) :
    (∀ st' e, poolSwapRun st payer recipient a1 = (st', .error e) →
       st'.pool.sqrtp_x96 = st.pool.sqrtp_x96) ∧
    (∀ st' r, poolSwapRun st payer recipient a1 = (st', .ok r) →
       tick_to_sqrtp_x96 st.pool.lower_tick ≤ tick_to_sqrtp_x96 st.pool.upper_tick →
       tick_to_sqrtp_x96 st.pool.lower_tick ≤ st'.pool.sqrtp_x96 ∧
       st'.pool.sqrtp_x96 ≤ tick_to_sqrtp_x96 st.pool.upper_tick) := by
  constructor
  · intro st' e h
    simp only [poolSwapRun] at h
    repeat' split at h
    all_goals injection h with h1 h2
    all_goals injection h2
    all_goals subst h1
    all_goals
      first
      | rfl
      | (have hp := swapCallback_pool_eq (by assumption)
         rw [hp])
  · intro st' r h hb
    simp only [poolSwapRun] at h
    repeat' split at h
    all_goals injection h with h1 h2
    all_goals injection h2
    all_goals subst h1
    all_goals (dsimp only; constructor <;> omega)

/-- Witness for C10 at a concrete failing swap (`NoLiquidity`: L = 0). -/
theorem pool_swap_price_commit_witness :
    poolSwapRun ⟨⟨7, 0, 2, 0⟩, ⟨fun _ => 0, fun _ => 0⟩, ⟨fun _ => 0, fun _ => 0⟩⟩
        "A" "B" 1
      = (⟨⟨7, 0, 2, 0⟩, ⟨fun _ => 0, fun _ => 0⟩, ⟨fun _ => 0, fun _ => 0⟩⟩,
         .error .noLiquidity) ∧
    (⟨⟨7, 0, 2, 0⟩, ⟨fun _ => 0, fun _ => 0⟩,
        ⟨fun _ => 0, fun _ => 0⟩⟩ : MState).pool.sqrtp_x96
      = (⟨⟨7, 0, 2, 0⟩, ⟨fun _ => 0, fun _ => 0⟩,
          ⟨fun _ => 0, fun _ => 0⟩⟩ : MState).pool.sqrtp_x96 := by
  have hrun : poolSwapRun
      ⟨⟨7, 0, 2, 0⟩, ⟨fun _ => 0, fun _ => 0⟩, ⟨fun _ => 0, fun _ => 0⟩⟩ "A" "B" 1
      = (⟨⟨7, 0, 2, 0⟩, ⟨fun _ => 0, fun _ => 0⟩, ⟨fun _ => 0, fun _ => 0⟩⟩,
         .error .noLiquidity) := by
    norm_num [poolSwapRun]
  exact ⟨hrun, (pool_swap_price_commit _ "A" "B" 1).1 _ Err.noLiquidity hrun⟩

lemma fdiv_q96_small : ((1 : ℤ) * Q96).fdiv (3 * 2 ^ 96) = 0 := by decide

/-- Counterexample for C3 as stated: a successful, unclamped Pool swap
(`L = 3 * 2^96`, price at the lower bound of range ticks `[0, 2]`,
`amount1In = 1`) returns `amount1Used = 0 ≠ 1 = amount1In`, because
`Pool.swap_token1_in_for_token0_out` always recomputes
`amount1Used = amount1Delta(L, sqrtNext, sqrtCurrent)` even when the price
move is not clamped (the unclamped `sqrtNext` stays inside the range, as the
two bound conjuncts record). -/
theorem pool_swap_amount1_used_counterexample :
    (0 : ℤ) < 3 * 2 ^ 96 ∧
    (poolSwapRun ⟨⟨2 ^ 96, 0, 2, 3 * 2 ^ 96⟩, ⟨fun _ => 0, fun _ => 0⟩,
        ⟨fun _ => 0, fun _ => 0⟩⟩ "Alice" "Bob" 1).2 = .ok (0, 0) ∧
    tick_to_sqrtp_x96 0 ≤ 2 ^ 96 + ((1 : ℤ) * Q96).fdiv (3 * 2 ^ 96) ∧
    2 ^ 96 + ((1 : ℤ) * Q96).fdiv (3 * 2 ^ 96) ≤ tick_to_sqrtp_x96 2 ∧
    (0 : ℤ) ≠ 1 := by
  refine ⟨by norm_num, ?_, ?_, ?_, by norm_num⟩
  · simp only [poolSwapRun, tick_to_sqrtp_zero, tick_to_sqrtp_two, fdiv_q96_small]
    norm_num [amount1_delta, amount0_delta, uniswapV3SwapCallback, pullIfPositive,
      TokenState.transfer, TokenState.balance_of, Q96]
  · rw [tick_to_sqrtp_zero, fdiv_q96_small]
    norm_num
  · rw [tick_to_sqrtp_two, fdiv_q96_small]
    norm_num
